import Mathlib

/-!
Verification of the cmake-server driver (`src/drivers/cmakeServerDriver.ts`)
and the configuration reader (`ConfigurationReader.updatePartial`).

The TypeScript source is shallowly embedded: each method becomes a pure Lean
function over an explicit driver state; interactions with the external
cmake-server process are modelled by an oracle record (`ServerReplies`) that
fixes the replies the server would give; side effects (logging, starting and
shutting down clients, firing events) are recorded in an explicit action trace.
JavaScript truthiness on optional strings, optional arrays and optional
booleans is modelled explicitly where the source relies on it.
-/

/-! ## Input file set / dirty tracker

Modelled from the spec: `InputFileSet` lives in `@cmt/dirty`, which is not part
of the sources; §4.2 of the spec describes it.  A snapshot records, for every
path, the modification time observed at capture (`none` when the file was
absent); `checkOutOfDate` re-reads every recorded path from the current
file system and reports true iff any path's current state differs from the
snapshot. -/

/-- A file system snapshot function: for a path, its current modification
time, or `none` when the file does not exist. -/
def Fs : Type := String → Option Nat

/-- One recorded build-definition input file: its path and the modification
time captured when the set was created (`none` = file was absent). -/
structure InputFile where
  filePath : String
  mtime : Option Nat
deriving DecidableEq

/-- The set of build-definition files captured after a successful configure. -/
structure InputFileSet where
  inputFiles : List InputFile
deriving DecidableEq

/-- Modelled from the spec: the sentinel set with zero files (`createEmpty`). -/
def InputFileSet.createEmpty : InputFileSet := ⟨[]⟩

/-- Modelled from the spec: snapshot the current modification time of every
given path; a missing path is recorded as absent rather than failing. -/
def InputFileSet.create (fs : Fs) (paths : List String) : InputFileSet :=
  ⟨paths.map fun p => ⟨p, fs p⟩⟩

/-- Modelled from the spec: true iff any recorded file's current modification
time differs from the snapshot (covering changed, deleted and re-created
files); false only when every file matches exactly. -/
def InputFileSet.checkOutOfDate (fs : Fs) (s : InputFileSet) : Bool :=
  s.inputFiles.any fun f => fs f.filePath != f.mtime

/-! ## Cache model

From `_refreshPostConfigure`: raw server entries `{key, value, type,
properties}` are folded into a `Map<string, cache.Entry>`; the seven
recognized type tags map into the `api.CacheEntryType` enumeration and an
unrecognized tag is logged (`rollbar.error`) and skipped. -/

/-- `api.CacheEntryType`: the closed set of cache entry types. -/
inductive CacheEntryType
  | bool
  | string
  | path
  | filePath
  | internal
  | uninitialized
  | static
deriving DecidableEq

/-- The `properties` object of a raw cache entry as read by the driver. -/
structure RawCacheProperties where
  HELPSTRING : String
  ADVANCED : String
deriving DecidableEq

/-- One raw cache entry as reported by the server (`clcache.cache` element). -/
structure RawCacheEntry where
  key : String
  value : String
  type : String
  properties : RawCacheProperties
deriving DecidableEq

/-- `cache.Entry` as constructed by the driver:
`new cache.Entry(el.key, el.value, type, el.properties.HELPSTRING,
el.properties.ADVANCED === '1')`. -/
structure Entry where
  key : String
  value : String
  type : CacheEntryType
  helpString : String
  advanced : Bool
deriving DecidableEq

/-- The `entry_map` lookup table of `_refreshPostConfigure`: maps a raw type
tag to the recognized cache entry type, `none` for an unrecognized tag. -/
def entryTypeOfString : String → Option CacheEntryType
  | "BOOL" => some .bool
  | "STRING" => some .string
  | "PATH" => some .path
  | "FILEPATH" => some .filePath
  | "INTERNAL" => some .internal
  | "UNINITIALIZED" => some .uninitialized
  | "STATIC" => some .static
  | _ => none

/-- The `cache.Entry` built from a recognized raw entry. -/
def mkCacheEntry (el : RawCacheEntry) (t : CacheEntryType) : Entry :=
  ⟨el.key, el.value, t, el.properties.HELPSTRING, el.properties.ADVANCED == "1"⟩

/-- The diagnostic logged for an unrecognized cache entry type tag. -/
def unknownTypeMsg (tag : String) : String :=
  "Unknown cache entry type " ++ tag

/-- JavaScript `Map.prototype.set` on an association list: replace the value
in place when the key is already bound, else append a new binding. -/
def mapSet (m : List (String × Entry)) (k : String) (v : Entry) :
    List (String × Entry) :=
  if m.any (fun p => p.1 == k) then
    m.map fun p => if p.1 == k then (k, v) else p
  else
    m ++ [(k, v)]

/-- The reducer body of the cache rebuild in `_refreshPostConfigure`: an
unrecognized type tag is logged and the accumulator returned unchanged; a
recognized one is set into the map. -/
def fromRawStep (acc : List (String × Entry) × List String)
    (el : RawCacheEntry) : List (String × Entry) × List String :=
  match entryTypeOfString el.type with
  | none => (acc.1, acc.2 ++ [unknownTypeMsg el.type])
  | some t => (mapSet acc.1 el.key (mkCacheEntry el t), acc.2)

/-- The cache rebuild of `_refreshPostConfigure`: fold the raw entries into a
map, skipping (and logging) every entry whose type tag is unrecognized.
Returns the map together with the list of logged diagnostics. -/
def fromRawEntries (entries : List RawCacheEntry) :
    List (String × Entry) × List String :=
  entries.foldl fromRawStep ([], [])

/-! ## Server code model and its translation

From `convertServerCodeModel`: a structural copy of the server's
configuration → project → target → file-group tree.  Field optionality follows
the truthiness tests the driver performs (`target.fileGroups`,
`group.compileFlags`, `linkLanguageFlags`, `project.hasInstallRule`,
`t.artifacts && t.artifacts.length`). -/

/-- JavaScript truthiness of an optional string: `undefined` and the empty
string are falsy, every other string is truthy. -/
def jsTruthyStr : Option String → Bool
  | none => false
  | some s => s != ""

/-- A file group as reported by the server. -/
structure ServerFileGroup where
  sources : List String
  language : Option String
  includePath : List String
  defines : List String
  isGenerated : Option Bool
  compileFlags : Option String
deriving DecidableEq

/-- A target as reported by the server. -/
structure ServerTarget where
  name : String
  type : String
  sourceDirectory : Option String
  fullName : Option String
  artifacts : Option (List String)
  sysroot : Option String
  linkLanguageFlags : Option String
  fileGroups : Option (List ServerFileGroup)
deriving DecidableEq

/-- A project as reported by the server. -/
structure ServerProject where
  name : String
  sourceDirectory : String
  hasInstallRule : Option Bool
  targets : List ServerTarget
deriving DecidableEq

/-- A configuration as reported by the server. -/
structure ServerConfiguration where
  name : String
  projects : List ServerProject
deriving DecidableEq

/-- The server's full code model (`cms.ServerCodeModelContent`). -/
structure ServerCodeModelContent where
  configurations : List ServerConfiguration
deriving DecidableEq

/-- A normalized file group (`CodeModelFileGroup`). -/
structure CodeModelFileGroup where
  sources : List String
  language : Option String
  includePath : List String
  defines : List String
  isGenerated : Option Bool
  compileCommandFragments : List String
deriving DecidableEq

/-- A normalized target (`CodeModelTarget`). -/
structure CodeModelTarget where
  name : String
  type : String
  sourceDirectory : Option String
  fullName : Option String
  artifacts : Option (List String)
  sysroot : Option String
  fileGroups : List CodeModelFileGroup
deriving DecidableEq

/-- A normalized project (`CodeModelProject`). -/
structure CodeModelProject where
  name : String
  sourceDirectory : String
  hasInstallRule : Option Bool
  targets : List CodeModelTarget
deriving DecidableEq

/-- A normalized configuration (`CodeModelConfiguration`). -/
structure CodeModelConfiguration where
  name : String
  projects : List CodeModelProject
deriving DecidableEq

/-- The driver's normalized code model (`CodeModelContent`). -/
structure CodeModelContent where
  configurations : List CodeModelConfiguration
deriving DecidableEq

/-- The per-group translation inside `convertServerCodeModel`:
`compileCommandFragments: group.compileFlags ? [group.compileFlags] :
(linkLanguageFlags ? [linkLanguageFlags] : [])`. -/
def convertFileGroup (linkLanguageFlags : Option String)
    (group : ServerFileGroup) : CodeModelFileGroup :=
  { sources := group.sources
    language := group.language
    includePath := group.includePath
    defines := group.defines
    isGenerated := group.isGenerated
    compileCommandFragments :=
      if jsTruthyStr group.compileFlags then [group.compileFlags.getD ""]
      else if jsTruthyStr linkLanguageFlags then [linkLanguageFlags.getD ""]
      else [] }

/-- The per-target translation inside `convertServerCodeModel`.  The source
initializes `fileGroups` to `[]` and fills it only under `if
(target.fileGroups)`, so an absent group list yields `[]`. -/
def convertTarget (target : ServerTarget) : CodeModelTarget :=
  { name := target.name
    type := target.type
    sourceDirectory := target.sourceDirectory
    fullName := target.fullName
    artifacts := target.artifacts
    sysroot := target.sysroot
    fileGroups :=
      (target.fileGroups.getD []).map (convertFileGroup target.linkLanguageFlags) }

/-- The per-project translation inside `convertServerCodeModel`. -/
def convertProject (project : ServerProject) : CodeModelProject :=
  { name := project.name
    sourceDirectory := project.sourceDirectory
    hasInstallRule := project.hasInstallRule
    targets := project.targets.map convertTarget }

/-- The per-configuration translation inside `convertServerCodeModel`. -/
def convertConfiguration (config : ServerConfiguration) : CodeModelConfiguration :=
  { name := config.name
    projects := config.projects.map convertProject }

/-- `convertServerCodeModel`: `null` maps to `null`; otherwise a structural
copy of the configuration tree. -/
def convertServerCodeModel (serverCodeModel : Option ServerCodeModelContent) :
    Option CodeModelContent :=
  serverCodeModel.map fun sm => ⟨sm.configurations.map convertConfiguration⟩

/-! ## Driver state and derived target views -/

/-- The driver fields the verified operations read and write.  `client` is the
resolved value of `_cmsClient` (`none` = no live client); `generator` is the
resolvable generator (`none` = no usable generator); `currentBuildType` and
`allTargetName` are the base-class values the `targets` getter consults. -/
structure DriverState where
  hadConfigurationChanged : Bool
  cmakeInputFileSet : InputFileSet
  cacheEntries : List (String × Entry)
  codeModel : Option CodeModelContent
  client : Option Nat
  generator : Option String
  currentBuildType : String
  allTargetName : String
deriving DecidableEq

/-- `checkNeedsReconfigure`, transliterated from the source: early return on
the settings-changed flag, then the empty-input-set check, then delegation to
the dirty tracker. -/
def checkNeedsReconfigure (fs : Fs) (s : DriverState) : Bool :=
  if s.hadConfigurationChanged then s.hadConfigurationChanged
  else if s.cmakeInputFileSet.inputFiles.length == 0 then true
  else InputFileSet.checkOutOfDate fs s.cmakeInputFileSet

/-- `api.RichTarget` as built by the `targets` getter: the `type` field is the
constant string `rich`. -/
structure RichTarget where
  type : String
  name : String
  filepath : String
  targetType : String
deriving DecidableEq

/-- Modelled from the spec: `path.normalize` from Node's path module; treated
as the identity since no verified claim depends on its behavior. -/
def pathNormalize (p : String) : String := p

/-- The localized filepath string of the synthetic build-all meta-target. -/
def buildAllFilepath : String := "A special target to build all available targets"

/-- The localized filepath string of the synthetic install meta-target. -/
def installFilepath : String := "A special target to install all available targets"

/-- The localized filepath string used for targets with no artifacts. -/
def utilityFilepath : String := "Utility target"

/-- The per-target mapping inside the `targets` getter: the filepath is the
normalized first artifact when the artifact list is present and non-empty
(JavaScript: `t.artifacts && t.artifacts.length`), else the utility string. -/
def toRichTarget (t : CodeModelTarget) : RichTarget :=
  { type := "rich"
    name := t.name
    filepath :=
      match t.artifacts with
      | some (a :: _) => pathNormalize a
      | _ => utilityFilepath
    targetType := t.type }

/-- The `targets` getter: empty without a code model or without a
configuration matching the current build type; otherwise the meta-targets
(build-all always, install when some project has a truthy install rule)
followed by every project's targets. -/
def targets (s : DriverState) : List RichTarget :=
  match s.codeModel with
  | none => []
  | some cm =>
    match cm.configurations.find? (fun conf => conf.name == s.currentBuildType) with
    | none => []
    | some buildConfig =>
      let metaTargets : List RichTarget :=
        [{ type := "rich", name := s.allTargetName, filepath := buildAllFilepath,
           targetType := "META" }] ++
        (if buildConfig.projects.any (fun project => project.hasInstallRule.getD false) then
          [{ type := "rich", name := "install", filepath := installFilepath,
             targetType := "META" }]
        else [])
      buildConfig.projects.foldl
        (fun acc project => acc ++ project.targets.map toRichTarget)
        metaTargets

/-- The `targetReducer` helper: push the target onto the accumulator unless an
entry with the same (name, filepath, targetType) is already there. -/
def targetReducer (set : List RichTarget) (t : RichTarget) : List RichTarget :=
  if (set.find? fun t2 =>
      t.name == t2.name && t.filepath == t2.filepath && t.targetType == t2.targetType).isSome then
    set
  else
    set ++ [t]

/-- The `uniqueTargets` getter: `this.targets.reduce(targetReducer, [])`. -/
def uniqueTargets (s : DriverState) : List RichTarget :=
  (targets s).foldl targetReducer []

/-- The `executableTargets` getter: executable targets, deduplicated, mapped
to (name, path) pairs. -/
def executableTargets (s : DriverState) : List (String × String) :=
  (((targets s).filter fun t => t.targetType == "EXECUTABLE").foldl targetReducer []).map
    fun t => (t.name, t.filepath)

/-- The `cmakeFiles` getter: the tracked input file paths. -/
def cmakeFiles (s : DriverState) : List String :=
  s.cmakeInputFileSet.inputFiles.map fun f => f.filePath

/-! ## Errors, actions and the configure operation -/

/-- The error taxonomy the driver distinguishes: `cms.ServerError` (structured
error reply), `NoGeneratorError`, a client startup failure, and any other
exception. -/
inductive DriverError
  | serverError (diag : String)
  | noGenerator
  | startup (msg : String)
  | other (msg : String)
deriving DecidableEq

/-- `errorToString` applied to a driver error: the diagnostic text. -/
def errorToString : DriverError → String
  | .serverError d => d
  | .noGenerator => "No usable generator found."
  | .startup m => m
  | .other m => m

/-- The observable side effects of the verified driver operations, in
execution order. -/
inductive DriverAction
  | awaitClientChange
  | clearConfigFlag
  | sendConfigure (args : List String)
  | sendCompute
  | logError (msg : String)
  | refreshPostConfigure
  | invalidateInputs
  | shutdownClient (id : Nat)
  | cleanPriorConfiguration
  | runCallback
  | startClient (id : Nat)
deriving DecidableEq

/-- Whether an action starts a new server client. -/
def isStartClient : DriverAction → Bool
  | .startClient _ => true
  | _ => false

/-- The oracle fixing the external server's behavior for one operation:
request outcomes (`none` = success) and the payloads of the post-configure
queries. -/
structure ServerReplies where
  startReply : Option DriverError
  newClientId : Nat
  configureReply : Option DriverError
  computeReply : Option DriverError
  cmakeInputs : List String
  cacheContent : List RawCacheEntry
  serverCodeModel : Option ServerCodeModelContent

/-- `_refreshPostConfigure`: re-derive the input file set from the reported
input list, rebuild the cache map from the raw entries, and translate the
server code model. -/
def refreshPostConfigure (fs : Fs) (r : ServerReplies) (s : DriverState) :
    DriverState :=
  { s with
    cmakeInputFileSet := InputFileSet.create fs r.cmakeInputs
    cacheEntries := (fromRawEntries r.cacheContent).1
    codeModel := convertServerCodeModel r.serverCodeModel }

/-- The diagnostic logged by `doConfigure` for a cmake-server error reply. -/
def configureErrorMsg (e : DriverError) : String :=
  "Error during CMake configure: " ++ errorToString e

/-- `getClient`: return the live client, or start a new one (which requires a
resolvable generator and a successful spawn). -/
def getClient (r : ServerReplies) (s : DriverState) :
    Except DriverError (Nat × DriverState × List DriverAction) :=
  match s.client with
  | some c => .ok (c, s, [])
  | none =>
    if s.generator.isNone then .error .noGenerator
    else
      match r.startReply with
      | some e => .error e
      | none =>
        .ok (r.newClientId, { s with client := some r.newClientId },
             [.startClient r.newClientId])

instance {ε α : Type} [DecidableEq ε] [DecidableEq α] : DecidableEq (Except ε α) :=
  fun a b =>
    match a, b with
    | .error e, .error f =>
      if h : e = f then isTrue (by rw [h]) else isFalse (by intro hh; cases hh; exact h rfl)
    | .error _, .ok _ => isFalse (by intro h; cases h)
    | .ok _, .error _ => isFalse (by intro h; cases h)
    | .ok x, .ok y =>
      if h : x = y then isTrue (by rw [h]) else isFalse (by intro hh; cases hh; exact h rfl)

/-- The result of one `doConfigure` run: the driver state after the call (the
source mutates `this` even when it throws), the action trace, and either the
returned exit code or the propagated exception. -/
structure ConfigureOutcome where
  state : DriverState
  trace : List DriverAction
  result : Except DriverError Nat
deriving DecidableEq

/-- `doConfigure`, transliterated: await the pending client change, acquire
the client, then (unless `showCommandOnly`) clear the settings-changed flag,
issue configure and compute; a `ServerError` reply is logged and turned into
exit code 1, any other failure propagates; on success run the post-configure
refresh and return 0. -/
def doConfigure (fs : Fs) (r : ServerReplies) (s : DriverState)
    (args : List String) (showCommandOnly : Bool) : ConfigureOutcome :=
  match getClient r s with
  | .error e => ⟨s, [.awaitClientChange], .error e⟩
  | .ok (_, s0, tr0) =>
    if showCommandOnly then
      ⟨s0, [.awaitClientChange] ++ tr0, .ok 0⟩
    else
      let s1 := { s0 with hadConfigurationChanged := false }
      let tr1 := [.awaitClientChange] ++ tr0 ++ [.clearConfigFlag, .sendConfigure args]
      match r.configureReply with
      | some (.serverError d) =>
        ⟨s1, tr1 ++ [.logError (configureErrorMsg (.serverError d))], .ok 1⟩
      | some e => ⟨s1, tr1, .error e⟩
      | none =>
        let tr2 := tr1 ++ [.sendCompute]
        match r.computeReply with
        | some (.serverError d) =>
          ⟨s1, tr2 ++ [.logError (configureErrorMsg (.serverError d))], .ok 1⟩
        | some e => ⟨s1, tr2, .error e⟩
        | none =>
          ⟨refreshPostConfigure fs r s1, tr2 ++ [.refreshPostConfigure], .ok 0⟩

/-! ## Kit and configure-preset changes -/

/-- The result of a kit/preset change: final driver state, action trace, and
the thrown error, if any. -/
structure SetKitOutcome where
  state : DriverState
  trace : List DriverAction
  err : Option DriverError
deriving DecidableEq

/-- `_restartClient` composed with `_doRestartClient`: shut down the old
client (when present) and start a new one; starting requires a resolvable
generator and a successful spawn. -/
def restartClient (r : ServerReplies) (s : DriverState) : SetKitOutcome :=
  let shutdown : List DriverAction :=
    match s.client with
    | some c => [.shutdownClient c]
    | none => []
  if s.generator.isNone then ⟨s, shutdown, some .noGenerator⟩
  else
    match r.startReply with
    | some e => ⟨s, shutdown, some e⟩
    | none =>
      ⟨{ s with client := some r.newClientId }, shutdown ++ [.startClient r.newClientId],
       none⟩

/-- `_setKitAndRestart`: reset the input file set, shut down the live client,
optionally clean prior configuration artifacts, run the mutation callback,
fail with `NoGeneratorError` when no generator is resolvable afterward, else
restart the client. -/
def setKitAndRestart (r : ServerReplies) (needClean : Bool)
    (cb : DriverState → DriverState) (s : DriverState) : SetKitOutcome :=
  let s1 := { s with cmakeInputFileSet := InputFileSet.createEmpty }
  let tr1 : List DriverAction :=
    [.invalidateInputs] ++
    (match s1.client with
     | some c => [.shutdownClient c]
     | none => []) ++
    (if needClean then [.cleanPriorConfiguration] else [])
  let s2 := cb s1
  let tr2 := tr1 ++ [.runCallback]
  if s2.generator.isNone then ⟨s2, tr2, some .noGenerator⟩
  else
    let rest := restartClient r s2
    ⟨rest.state, tr2 ++ rest.trace, rest.err⟩

/-- `doSetKit`: a kit change is `_setKitAndRestart(false, cb)`. -/
def doSetKit (r : ServerReplies) (cb : DriverState → DriverState)
    (s : DriverState) : SetKitOutcome :=
  setKitAndRestart r false cb s

/-- `doSetConfigurePreset`: a configure-preset change is
`_setKitAndRestart(need_clean, cb)`. -/
def doSetConfigurePreset (r : ServerReplies) (needClean : Bool)
    (cb : DriverState → DriverState) (s : DriverState) : SetKitOutcome :=
  setKitAndRestart r needClean cb s

/-! ## Configuration reader: updatePartial

From `ConfigurationReader.updatePartial` in the configuration module: copy the
old values, `Object.assign` the new data onto the stored config, then for every
own property of the new data that has an emitter, compare the (assigned) new
value against the old one with `util.compare`; on a non-equivalent value, fire
the setting's emitter when the event flag is set and the new value is not
`undefined`, and record the key in the returned list.

A JavaScript object is embedded as an association list with distinct keys
(property access is `List.lookup`); `util.compare`'s equivalence test (the
module is not part of the sources) is an arbitrary boolean-valued parameter
`equiv`, and the emitter table is the predicate `hasEmitter`. -/

/-- A JavaScript settings value; `undef` is the JavaScript `undefined`. -/
inductive JSVal
  | undef
  | str (s : String)
  | num (n : Int)
  | boolean (b : Bool)
  | strList (l : List String)
deriving DecidableEq

/-- The result of one `updatePartial` call: the stored configuration after
`Object.assign`, the (setting, value) pairs fired on emitters, and the
returned list of changed keys. -/
structure UpdateOutcome where
  config : String → JSVal
  fired : List (String × JSVal)
  keys : List String

/-- The loop body of `updatePartial` for one own property of the new data:
skipped without an emitter; on a value not equivalent to the old one, the
emitter fires (when the event flag is set and the new value is defined) and
the key is recorded.  `oldValues` is the pre-call configuration copy,
`assigned` the post-`Object.assign` configuration, `newData` the update
object the loop reads `temp` from. -/
def updateStep (equiv : JSVal → JSVal → Bool) (hasEmitter : String → Bool)
    (fireEvent : Bool) (oldValues assigned : String → JSVal)
    (newData : List (String × JSVal))
    (acc : List (String × JSVal) × List String) (kv : String × JSVal) :
    List (String × JSVal) × List String :=
  if hasEmitter kv.1 then
    let newValue := assigned kv.1
    let oldValue := oldValues kv.1
    if equiv newValue oldValue then acc
    else
      let fired :=
        if fireEvent then
          match newData.lookup kv.1 with
          | some v => if v != JSVal.undef then acc.1 ++ [(kv.1, v)] else acc.1
          | none => acc.1
        else acc.1
      (fired, acc.2 ++ [kv.1])
  else acc

/-- `ConfigurationReader.updatePartial`, transliterated.  `configData` is the
stored configuration before the call, `newData` the partial update (own
properties in order, unique keys). -/
def updatePartialSettings (equiv : JSVal → JSVal → Bool)
    (hasEmitter : String → Bool) (fireEvent : Bool)
    (configData : String → JSVal) (newData : List (String × JSVal)) :
    UpdateOutcome :=
  let oldValues := configData
  let assigned : String → JSVal := fun k =>
    match newData.lookup k with
    | some v => v
    | none => configData k
  let folded := newData.foldl
    (updateStep equiv hasEmitter fireEvent oldValues assigned newData) ([], [])
  ⟨assigned, folded.1, folded.2⟩

/-! ## Specification-side definitions and concrete instances -/

/-- The (name, filepath, targetType) triple of a rich target — the
deduplication key of `targetReducer`. -/
def tripleOf (t : RichTarget) : String × String × String :=
  (t.name, t.filepath, t.targetType)

/-- Specification-side deduplication, following the spec's words: one entry
per distinct (name, filepath, targetType) triple, in order of first
occurrence; `seen` is the set of triples already emitted. -/
def keepFirstByTriple (seen : List (String × String × String)) :
    List RichTarget → List RichTarget
  | [] => []
  | t :: ts =>
    if tripleOf t ∈ seen then keepFirstByTriple seen ts
    else t :: keepFirstByTriple (tripleOf t :: seen) ts

/-- A file group carrying per-group compile flags, used to instantiate the
compile-command-fragment theorem. -/
def c5Group : ServerFileGroup :=
  { sources := ["a.c"], language := some "C", includePath := [], defines := []
    isGenerated := none, compileFlags := some "-O2" }

/-- A raw cache entry with a recognized type tag. -/
def c4GoodEntry : RawCacheEntry :=
  { key := "FOO", value := "1", type := "STRING"
    properties := { HELPSTRING := "h", ADVANCED := "1" } }

/-- A raw cache entry with an unrecognized type tag. -/
def c4BadEntry : RawCacheEntry :=
  { key := "BAR", value := "2", type := "WEIRD"
    properties := { HELPSTRING := "", ADVANCED := "0" } }

/-- A raw entry list mixing recognized and unrecognized type tags. -/
def c4Entries : List RawCacheEntry := [c4GoodEntry, c4BadEntry]

/-- A file system with no files, for the configure counterexample. -/
def c6Fs : Fs := fun _ => none

/-- Server replies for a fully successful configure whose reported code model
has zero configurations. -/
def c6Replies : ServerReplies :=
  { startReply := none
    newClientId := 1
    configureReply := none
    computeReply := none
    cmakeInputs := []
    cacheContent := []
    serverCodeModel := some ⟨[]⟩ }

/-- A pre-configure driver state with a live client. -/
def c6StartState : DriverState :=
  { hadConfigurationChanged := true
    cmakeInputFileSet := InputFileSet.createEmpty
    cacheEntries := []
    codeModel := none
    client := some 0
    generator := some "Ninja"
    currentBuildType := "Debug"
    allTargetName := "all" }

/-- A configuration with no projects, matching the build type `Debug`. -/
def c6Config : CodeModelConfiguration := { name := "Debug", projects := [] }

/-- A driver state whose code model has a configuration matching the current
build type but no projects at all. -/
def c6MatchState : DriverState :=
  { hadConfigurationChanged := false
    cmakeInputFileSet := InputFileSet.createEmpty
    cacheEntries := []
    codeModel := some ⟨[c6Config]⟩
    client := none
    generator := none
    currentBuildType := "Debug"
    allTargetName := "all" }

/-- A code-model target used twice in one project, to exercise target
deduplication. -/
def c7DupTarget : CodeModelTarget :=
  { name := "app", type := "EXECUTABLE", sourceDirectory := none
    fullName := none, artifacts := some ["/build/app"], sysroot := none
    fileGroups := [] }

/-- A driver state whose matching configuration lists the same target twice. -/
def c7State : DriverState :=
  { hadConfigurationChanged := false
    cmakeInputFileSet := InputFileSet.createEmpty
    cacheEntries := []
    codeModel := some ⟨[{ name := "Debug"
                          projects := [{ name := "p", sourceDirectory := "/src"
                                         hasInstallRule := none
                                         targets := [c7DupTarget, c7DupTarget] }] }]⟩
    client := none
    generator := none
    currentBuildType := "Debug"
    allTargetName := "all" }

/-- A stored configuration for the update theorem's instantiation: every
setting holds the string `old`. -/
def c10Config : String → JSVal := fun _ => .str "old"

/-- A partial update: one changed key, one equivalent key, one key set to
`undefined`. -/
def c10NewData : List (String × JSVal) :=
  [("generator", .str "Ninja"), ("toolset", .str "old"), ("platform", .undef)]

/-- The emitter table instantiation for the update theorem: every settings key
of the typed interface has an emitter. -/
def c10HasEmitter : String → Bool := fun _ => true

/-- The `util.compare` equivalence instantiation for the update theorem:
structural equality. -/
def c10Equiv : JSVal → JSVal → Bool := fun a b => a == b

/-! ## Theorems -/

/-- C1: for every driver state and file system, `checkNeedsReconfigure` is
exactly the three-way disjunction of the settings-changed flag, the emptiness
of the recorded input file set, and the dirty tracker's out-of-date check —
no other input influences the result. -/
theorem c1_checkNeedsReconfigure_disjunction (fs : Fs) (s : DriverState) :
    checkNeedsReconfigure fs s =
      (s.hadConfigurationChanged || s.cmakeInputFileSet.inputFiles.isEmpty ||
        InputFileSet.checkOutOfDate fs s.cmakeInputFileSet) := by
  unfold checkNeedsReconfigure
  cases h : s.hadConfigurationChanged
  · cases hl : s.cmakeInputFileSet.inputFiles <;>
      simp [hl, InputFileSet.checkOutOfDate]
  · simp

/-- C5: in the translated code model, a file group with truthy per-group
compile flags gets exactly those flags as its sole compile-command fragment; a
group with falsy per-group flags but truthy target-level link-language flags
gets exactly those; a group with neither gets the empty list — and every
target's file groups are translated exactly this way, as is the whole model. -/
theorem c5_compile_command_fragments :
    (∀ (link : Option String) (g : ServerFileGroup) (c : String),
      g.compileFlags = some c → c ≠ "" →
        (convertFileGroup link g).compileCommandFragments = [c]) ∧
    (∀ (g : ServerFileGroup) (l : String),
      jsTruthyStr g.compileFlags = false → l ≠ "" →
        (convertFileGroup (some l) g).compileCommandFragments = [l]) ∧
    (∀ (link : Option String) (g : ServerFileGroup),
      jsTruthyStr g.compileFlags = false → jsTruthyStr link = false →
        (convertFileGroup link g).compileCommandFragments = []) ∧
    (∀ t : ServerTarget,
      (convertTarget t).fileGroups =
        (t.fileGroups.getD []).map (convertFileGroup t.linkLanguageFlags)) ∧
    (∀ sm : ServerCodeModelContent,
      convertServerCodeModel (some sm) =
        some ⟨sm.configurations.map convertConfiguration⟩) := by
  refine ⟨?_, ?_, ?_, ?_, ?_⟩
  · intro link g c hc hne
    simp [convertFileGroup, jsTruthyStr, hc, hne]
  · intro g l hflags hl
    simp only [convertFileGroup, hflags, Bool.false_eq_true, if_false]
    simp [jsTruthyStr, hl]
  · intro link g hflags hlink
    simp [convertFileGroup, hflags, hlink]
  · intro t
    rfl
  · intro sm
    rfl

/-- C5 witness: a group with compile flags `-O2` under a link-language flag
`-lm` receives exactly `[-O2]`. -/
theorem c5_witness :
    c5Group.compileFlags = some "-O2" ∧ "-O2" ≠ "" ∧
      (convertFileGroup (some "-lm") c5Group).compileCommandFragments = ["-O2"] :=
  ⟨rfl, by decide,
    c5_compile_command_fragments.1 (some "-lm") c5Group "-O2" rfl (by decide)⟩

theorem mapSet_keys_nodup (m : List (String × Entry)) (k : String) (v : Entry)
    (h : (m.map Prod.fst).Nodup) : ((mapSet m k v).map Prod.fst).Nodup := by
  unfold mapSet
  by_cases hk : m.any (fun p => p.1 == k)
  · rw [if_pos hk]
    have : ((m.map fun p => if p.1 == k then (k, v) else p).map Prod.fst) =
        m.map Prod.fst := by
      rw [List.map_map]
      apply List.map_congr_left
      intro p _
      by_cases hp : p.1 = k <;> simp [hp]
    rw [this]
    exact h
  · rw [if_neg hk]
    have hnk : k ∉ m.map Prod.fst := by
      intro hmem
      apply hk
      rw [List.any_eq_true]
      obtain ⟨p, hp, hpk⟩ := List.mem_map.mp hmem
      exact ⟨p, hp, by simp [hpk]⟩
    simp [List.nodup_append, h, hnk]

theorem mapSet_mem (m : List (String × Entry)) (k : String) (v : Entry)
    (p : String × Entry) (hp : p ∈ mapSet m k v) : p ∈ m ∨ p = (k, v) := by
  unfold mapSet at hp
  by_cases hk : m.any (fun q => q.1 == k)
  · rw [if_pos hk] at hp
    obtain ⟨q, hq, hqe⟩ := List.mem_map.mp hp
    by_cases hqk : q.1 == k
    · right
      rw [if_pos hqk] at hqe
      exact hqe.symm
    · left
      rw [if_neg hqk] at hqe
      rw [← hqe]
      exact hq
  · rw [if_neg hk] at hp
    rcases List.mem_append.mp hp with h1 | h1
    · exact Or.inl h1
    · exact Or.inr (List.mem_singleton.mp h1)

theorem fromRaw_fold_nodup (entries : List RawCacheEntry)
    (acc : List (String × Entry) × List String)
    (h : (acc.1.map Prod.fst).Nodup) :
    (((entries.foldl fromRawStep acc).1).map Prod.fst).Nodup := by
  induction entries generalizing acc with
  | nil => exact h
  | cons el rest ih =>
    rw [List.foldl_cons]
    apply ih
    unfold fromRawStep
    cases ht : entryTypeOfString el.type
    · exact h
    · exact mapSet_keys_nodup _ _ _ h

theorem fromRaw_fold_mem (entries : List RawCacheEntry)
    (acc : List (String × Entry) × List String) (p : String × Entry)
    (hp : p ∈ (entries.foldl fromRawStep acc).1) :
    p ∈ acc.1 ∨ ∃ el ∈ entries, ∃ t, entryTypeOfString el.type = some t ∧
      p = (el.key, mkCacheEntry el t) := by
  induction entries generalizing acc with
  | nil => exact Or.inl hp
  | cons el rest ih =>
    rw [List.foldl_cons] at hp
    rcases ih _ hp with h1 | h1
    · unfold fromRawStep at h1
      cases ht : entryTypeOfString el.type with
      | none =>
        rw [ht] at h1
        exact Or.inl h1
      | some t =>
        rw [ht] at h1
        rcases mapSet_mem _ _ _ _ h1 with h2 | h2
        · exact Or.inl h2
        · exact Or.inr ⟨el, List.mem_cons_self el rest, t, ht, h2⟩
    · obtain ⟨el', hel', t, ht, he⟩ := h1
      exact Or.inr ⟨el', List.mem_cons_of_mem el hel', t, ht, he⟩

theorem fromRaw_fold_log_mono (entries : List RawCacheEntry)
    (acc : List (String × Entry) × List String) (x : String)
    (hx : x ∈ acc.2) : x ∈ (entries.foldl fromRawStep acc).2 := by
  induction entries generalizing acc with
  | nil => exact hx
  | cons el rest ih =>
    rw [List.foldl_cons]
    apply ih
    unfold fromRawStep
    cases ht : entryTypeOfString el.type
    · exact List.mem_append_left _ hx
    · exact hx

theorem fromRaw_fold_log_cover (entries : List RawCacheEntry)
    (acc : List (String × Entry) × List String) (el : RawCacheEntry)
    (hel : el ∈ entries) (ht : entryTypeOfString el.type = none) :
    unknownTypeMsg el.type ∈ (entries.foldl fromRawStep acc).2 := by
  induction entries generalizing acc with
  | nil => cases hel
  | cons e rest ih =>
    rw [List.foldl_cons]
    rcases List.mem_cons.mp hel with rfl | h1
    · apply fromRaw_fold_log_mono
      unfold fromRawStep
      rw [ht]
      exact List.mem_append_right _ (List.mem_singleton.mpr rfl)
    · exact ih _ h1

/-- C4: for every raw entry list, the rebuilt cache map has pairwise distinct
keys; every map entry's type belongs to the closed seven-element set and
arises from a raw entry with a recognized tag (never from a coerced
unrecognized one); and every raw entry with an unrecognized tag is recorded as
a logged diagnostic. -/
theorem c4_cache_rebuild (entries : List RawCacheEntry) :
    (((fromRawEntries entries).1.map Prod.fst).Nodup) ∧
    (∀ p ∈ (fromRawEntries entries).1,
      p.2.type ∈ [CacheEntryType.bool, .string, .path, .filePath, .internal,
        .uninitialized, .static] ∧
      ∃ el ∈ entries, ∃ t, entryTypeOfString el.type = some t ∧
        p = (el.key, mkCacheEntry el t)) ∧
    (∀ el ∈ entries, entryTypeOfString el.type = none →
      unknownTypeMsg el.type ∈ (fromRawEntries entries).2) := by
  refine ⟨?_, ?_, ?_⟩
  · exact fromRaw_fold_nodup entries ([], []) (by simp)
  · intro p hp
    constructor
    · cases p.2.type <;> simp
    · rcases fromRaw_fold_mem entries ([], []) p hp with h | h
      · cases h
      · exact h
  · intro el hel ht
    exact fromRaw_fold_log_cover entries ([], []) el hel ht

/-- C4 witness: on a list with one recognized and one unrecognized entry, the
unrecognized entry's diagnostic is logged, and the map's sole entry has
distinct keys and comes from the recognized entry. -/
theorem c4_witness :
    c4BadEntry ∈ c4Entries ∧ entryTypeOfString c4BadEntry.type = none ∧
      unknownTypeMsg c4BadEntry.type ∈ (fromRawEntries c4Entries).2 :=
  ⟨by decide, rfl, (c4_cache_rebuild c4Entries).2.2 c4BadEntry (by decide) rfl⟩

/-- C2: acquiring the client successfully and then running `doConfigure` with
requests enabled: a `ServerError` reply to the configure or compute request is
logged and yields the returned exit code 1 (no exception, no refresh); any
other request failure propagates as an exception; when both requests succeed
the post-configure refresh runs and 0 is returned. -/
theorem c2_doConfigure_error_handling (fs : Fs) (r : ServerReplies)
    (s : DriverState) (args : List String) (c : Nat) :
    let s' := { s with client := some c }
    let out := doConfigure fs r s' args false
    match r.configureReply with
    | some (.serverError d) =>
        out.result = .ok 1 ∧
        out.trace = [.awaitClientChange, .clearConfigFlag, .sendConfigure args,
          .logError (configureErrorMsg (.serverError d))] ∧
        out.state = { s' with hadConfigurationChanged := false }
    | some e => out.result = .error e
    | none =>
      match r.computeReply with
      | some (.serverError d) =>
          out.result = .ok 1 ∧
          out.trace = [.awaitClientChange, .clearConfigFlag, .sendConfigure args,
            .sendCompute, .logError (configureErrorMsg (.serverError d))] ∧
          out.state = { s' with hadConfigurationChanged := false }
      | some e => out.result = .error e
      | none =>
          out.result = .ok 0 ∧
          out.state = refreshPostConfigure fs r { s' with hadConfigurationChanged := false } ∧
          out.trace = [.awaitClientChange, .clearConfigFlag, .sendConfigure args,
            .sendCompute, .refreshPostConfigure] := by
  intro s' out
  rcases hc : r.configureReply with _ | e
  · rcases hk : r.computeReply with _ | e
    · simp only [hc, hk]
      refine ⟨?_, ?_, ?_⟩ <;> simp [out, s', doConfigure, getClient, hc, hk]
    · simp only [hc, hk]
      cases e <;> simp [out, s', doConfigure, getClient, hc, hk]
  · simp only [hc]
    cases e <;> simp [out, s', doConfigure, getClient, hc]

theorem checkNeeds_flag_false (fs : Fs) (s : DriverState)
    (h : s.hadConfigurationChanged = false) :
    checkNeedsReconfigure fs s =
      (s.cmakeInputFileSet.inputFiles.isEmpty ||
        InputFileSet.checkOutOfDate fs s.cmakeInputFileSet) := by
  unfold checkNeedsReconfigure
  rw [h]
  cases hl : s.cmakeInputFileSet.inputFiles <;>
    simp [hl, InputFileSet.checkOutOfDate]

/-- C9: `doConfigure` clears the configuration-changed flag before sending the
configure request (the trace shows the clear strictly first); after a
configure or compute request that fails with a `ServerError` (exit code 1) the
flag is false, the recorded input file set is unchanged, and a subsequent
`checkNeedsReconfigure` depends only on the input file set. -/
theorem c9_flag_cleared_before_send (fs : Fs) (r : ServerReplies)
    (s : DriverState) (args : List String) (c : Nat) (d : String) :
    let s' := { s with client := some c }
    let outc := doConfigure fs { r with configureReply := some (.serverError d) }
      s' args false
    let outk := doConfigure fs
      { r with configureReply := none, computeReply := some (.serverError d) }
      s' args false
    (outc.result = .ok 1 ∧
      outc.state.hadConfigurationChanged = false ∧
      outc.state.cmakeInputFileSet = s.cmakeInputFileSet ∧
      outc.trace = [.awaitClientChange, .clearConfigFlag, .sendConfigure args,
        .logError (configureErrorMsg (.serverError d))] ∧
      checkNeedsReconfigure fs outc.state =
        (s.cmakeInputFileSet.inputFiles.isEmpty ||
          InputFileSet.checkOutOfDate fs s.cmakeInputFileSet)) ∧
    (outk.result = .ok 1 ∧
      outk.state.hadConfigurationChanged = false ∧
      outk.state.cmakeInputFileSet = s.cmakeInputFileSet ∧
      outk.trace = [.awaitClientChange, .clearConfigFlag, .sendConfigure args,
        .sendCompute, .logError (configureErrorMsg (.serverError d))] ∧
      checkNeedsReconfigure fs outk.state =
        (s.cmakeInputFileSet.inputFiles.isEmpty ||
          InputFileSet.checkOutOfDate fs s.cmakeInputFileSet)) := by
  intro s' outc outk
  refine ⟨⟨?_, ?_, ?_, ?_, ?_⟩, ⟨?_, ?_, ?_, ?_, ?_⟩⟩ <;>
    simp [outc, outk, s', doConfigure, getClient] <;>
    exact checkNeeds_flag_false fs _ rfl

theorem foldl_append_init {α β : Type} (g : α → List β) (l : List α) :
    ∀ init : List β,
      l.foldl (fun acc x => acc ++ g x) init =
        init ++ l.foldl (fun acc x => acc ++ g x) [] := by
  induction l with
  | nil => intro init; simp
  | cons x xs ih =>
    intro init
    rw [List.foldl_cons, List.foldl_cons, ih (init ++ g x), List.nil_append,
      ih (g x), List.append_assoc]

/-- C6 counterexample: a successful configure (exit code 0) against a server
reporting a code model with zero configurations leaves the driver with a
non-null code model whose targets view is empty — no build-all meta-target is
present even though the driver has completed a configure. -/
theorem c6_counterexample :
    (doConfigure c6Fs c6Replies c6StartState [] false).result = .ok 0 ∧
    (doConfigure c6Fs c6Replies c6StartState [] false).state.codeModel.isSome = true ∧
    targets (doConfigure c6Fs c6Replies c6StartState [] false).state = [] := by
  refine ⟨rfl, rfl, ?_⟩
  decide

/-- C6 (amended): when the code model is null, or non-null but without a
configuration matching the current build type, the targets view is empty;
when a configuration matches, the view is the build-all meta-target, followed
by the install meta-target exactly when some project declares a truthy
install rule, followed by the projects' targets — so the build-all target is
present even when every project's target list is empty. -/
theorem c6_targets_meta (s : DriverState) :
    (s.codeModel = none → targets s = []) ∧
    (∀ cm, s.codeModel = some cm →
      (cm.configurations.find? (fun conf => conf.name == s.currentBuildType) = none →
        targets s = []) ∧
      (∀ bc,
        cm.configurations.find? (fun conf => conf.name == s.currentBuildType) = some bc →
        targets s =
          ({ type := "rich", name := s.allTargetName, filepath := buildAllFilepath,
             targetType := "META" } : RichTarget) ::
            ((if bc.projects.any (fun project => project.hasInstallRule.getD false) then
                [{ type := "rich", name := "install", filepath := installFilepath,
                   targetType := "META" }]
              else ([] : List RichTarget)) ++
              bc.projects.foldl
                (fun acc project => acc ++ project.targets.map toRichTarget) []) ∧
        ({ type := "rich", name := s.allTargetName, filepath := buildAllFilepath,
           targetType := "META" } : RichTarget) ∈ targets s ∧
        (bc.projects.any (fun project => project.hasInstallRule.getD false) = true →
          ({ type := "rich", name := "install", filepath := installFilepath,
             targetType := "META" } : RichTarget) ∈ targets s))) := by
  refine ⟨?_, ?_⟩
  · intro h
    simp [targets, h]
  · intro cm hcm
    refine ⟨?_, ?_⟩
    · intro hf
      simp [targets, hcm, hf]
    · intro bc hf
      have heq : targets s =
          ({ type := "rich", name := s.allTargetName, filepath := buildAllFilepath,
             targetType := "META" } : RichTarget) ::
            ((if bc.projects.any (fun project => project.hasInstallRule.getD false) then
                [{ type := "rich", name := "install", filepath := installFilepath,
                   targetType := "META" }]
              else ([] : List RichTarget)) ++
              bc.projects.foldl
                (fun acc project => acc ++ project.targets.map toRichTarget) []) := by
        simp only [targets, hcm, hf]
        rw [foldl_append_init (fun project => project.targets.map toRichTarget)
          bc.projects]
        simp
      refine ⟨heq, ?_, ?_⟩
      · rw [heq]
        exact List.mem_cons_self _ _
      · intro hcond
        rw [heq]
        simp [hcond]

/-- C6 witness for the amended claim: a state whose matching configuration has
no projects at all still lists the build-all meta-target. -/
theorem c6_witness :
    c6MatchState.codeModel = some ⟨[c6Config]⟩ ∧
    (⟨[c6Config]⟩ : CodeModelContent).configurations.find?
      (fun conf => conf.name == c6MatchState.currentBuildType) = some c6Config ∧
    ({ type := "rich", name := c6MatchState.allTargetName,
       filepath := buildAllFilepath, targetType := "META" } : RichTarget) ∈
      targets c6MatchState :=
  ⟨rfl, by decide,
    (((c6_targets_meta c6MatchState).2 ⟨[c6Config]⟩ rfl).2 c6Config (by decide)).2.1⟩

theorem keepFirst_congr (ts : List RichTarget) :
    ∀ s1 s2 : List (String × String × String), (∀ x, x ∈ s1 ↔ x ∈ s2) →
      keepFirstByTriple s1 ts = keepFirstByTriple s2 ts := by
  induction ts with
  | nil => intro s1 s2 _; rfl
  | cons t ts ih =>
    intro s1 s2 h
    unfold keepFirstByTriple
    by_cases hm : tripleOf t ∈ s1
    · rw [if_pos hm, if_pos ((h _).mp hm)]
      exact ih _ _ h
    · rw [if_neg hm, if_neg (fun hx => hm ((h _).mpr hx))]
      congr 1
      apply ih
      intro x
      simp [h x]

theorem find_triple_isSome (t : RichTarget) (acc : List RichTarget) :
    (acc.find? fun t2 =>
        t.name == t2.name && t.filepath == t2.filepath &&
          t.targetType == t2.targetType).isSome = true ↔
      tripleOf t ∈ acc.map tripleOf := by
  rw [List.find?_isSome]
  constructor
  · rintro ⟨x, hx, hp⟩
    simp only [Bool.and_eq_true, beq_iff_eq] at hp
    apply List.mem_map.mpr
    refine ⟨x, hx, ?_⟩
    simp [tripleOf, hp.1.1, hp.1.2, hp.2]
  · intro hm
    obtain ⟨x, hx, he⟩ := List.mem_map.mp hm
    refine ⟨x, hx, ?_⟩
    simp only [tripleOf, Prod.mk.injEq] at he
    simp [he.1, he.2.1, he.2.2]

theorem foldl_targetReducer (ts : List RichTarget) :
    ∀ acc, ts.foldl targetReducer acc =
      acc ++ keepFirstByTriple (acc.map tripleOf) ts := by
  induction ts with
  | nil => intro acc; simp [keepFirstByTriple]
  | cons t ts ih =>
    intro acc
    rw [List.foldl_cons]
    by_cases hf : (acc.find? fun t2 =>
        t.name == t2.name && t.filepath == t2.filepath &&
          t.targetType == t2.targetType).isSome = true
    · have hred : targetReducer acc t = acc := by
        unfold targetReducer
        rw [if_pos hf]
      rw [hred, ih acc]
      have hm : tripleOf t ∈ acc.map tripleOf := (find_triple_isSome t acc).mp hf
      conv_rhs => unfold keepFirstByTriple
      rw [if_pos hm]
    · have hred : targetReducer acc t = acc ++ [t] := by
        unfold targetReducer
        rw [if_neg hf]
      rw [hred, ih (acc ++ [t])]
      have hm : tripleOf t ∉ acc.map tripleOf :=
        fun h => hf ((find_triple_isSome t acc).mpr h)
      conv_rhs => unfold keepFirstByTriple
      rw [if_neg hm]
      have hseen : keepFirstByTriple ((acc ++ [t]).map tripleOf) ts =
          keepFirstByTriple (tripleOf t :: acc.map tripleOf) ts := by
        apply keepFirst_congr
        intro x
        simp [or_comm]
      rw [hseen, List.append_assoc]
      rfl

theorem keepFirst_nodup (ts : List RichTarget) :
    ∀ seen, (((keepFirstByTriple seen ts).map tripleOf).Nodup) ∧
      (∀ x ∈ (keepFirstByTriple seen ts).map tripleOf, x ∉ seen) := by
  induction ts with
  | nil =>
    intro seen
    exact ⟨List.nodup_nil, fun x hx => absurd hx (by simp [keepFirstByTriple])⟩
  | cons t ts ih =>
    intro seen
    unfold keepFirstByTriple
    by_cases hm : tripleOf t ∈ seen
    · rw [if_pos hm]
      exact ih seen
    · rw [if_neg hm]
      obtain ⟨h1, h2⟩ := ih (tripleOf t :: seen)
      refine ⟨?_, ?_⟩
      · simp only [List.map_cons, List.nodup_cons]
        exact ⟨fun hc => (h2 _ hc) (List.mem_cons_self _ _), h1⟩
      · intro x hx
        simp only [List.map_cons, List.mem_cons] at hx
        rcases hx with rfl | hx
        · exact hm
        · exact fun hxs => (h2 x hx) (List.mem_cons_of_mem _ hxs)

theorem keepFirst_complete (ts : List RichTarget) :
    ∀ seen t, t ∈ ts →
      tripleOf t ∈ seen ∨ tripleOf t ∈ (keepFirstByTriple seen ts).map tripleOf := by
  induction ts with
  | nil => intro seen t ht; cases ht
  | cons u ts ih =>
    intro seen t ht
    unfold keepFirstByTriple
    by_cases hm : tripleOf u ∈ seen
    · rw [if_pos hm]
      rcases List.mem_cons.mp ht with rfl | ht1
      · exact Or.inl hm
      · exact ih seen t ht1
    · rw [if_neg hm]
      rcases List.mem_cons.mp ht with rfl | ht1
      · right; simp
      · rcases ih (tripleOf u :: seen) t ht1 with h | h
        · rcases List.mem_cons.mp h with he | hs
          · right; rw [he]; simp
          · exact Or.inl hs
        · right
          simp only [List.map_cons, List.mem_cons]
          exact Or.inr h

theorem keepFirst_subset (ts : List RichTarget) :
    ∀ seen t, t ∈ keepFirstByTriple seen ts → t ∈ ts := by
  induction ts with
  | nil =>
    intro seen t ht
    simp [keepFirstByTriple] at ht
  | cons u ts ih =>
    intro seen t ht
    unfold keepFirstByTriple at ht
    by_cases hm : tripleOf u ∈ seen
    · rw [if_pos hm] at ht
      exact List.mem_cons_of_mem _ (ih seen t ht)
    · rw [if_neg hm] at ht
      rcases List.mem_cons.mp ht with rfl | ht1
      · exact List.mem_cons_self _ _
      · exact List.mem_cons_of_mem _ (ih _ t ht1)

/-- C7: `uniqueTargets` is exactly the targets view deduplicated by the
(name, filepath, targetType) triple in order of first occurrence: it equals
the specification-side first-occurrence filter, its triples are pairwise
distinct (no triple appears twice), every triple of the targets view is
represented, and every entry comes from the targets view. -/
theorem c7_uniqueTargets_dedup (s : DriverState) :
    uniqueTargets s = keepFirstByTriple [] (targets s) ∧
    ((uniqueTargets s).map tripleOf).Nodup ∧
    (∀ t ∈ targets s, tripleOf t ∈ (uniqueTargets s).map tripleOf) ∧
    (∀ u ∈ uniqueTargets s, u ∈ targets s) := by
  have he : uniqueTargets s = keepFirstByTriple [] (targets s) := by
    unfold uniqueTargets
    rw [foldl_targetReducer (targets s) []]
    simp
  refine ⟨he, ?_, ?_, ?_⟩
  · rw [he]
    exact (keepFirst_nodup (targets s) []).1
  · intro t ht
    rw [he]
    rcases keepFirst_complete (targets s) [] t ht with h | h
    · cases h
    · exact h
  · intro u hu
    rw [he] at hu
    exact keepFirst_subset (targets s) [] u hu

/-- C7 witness: in a state whose project lists the same executable target
twice, the duplicated target's triple is represented in `uniqueTargets`, and
the triples of `uniqueTargets` are pairwise distinct. -/
theorem c7_witness :
    toRichTarget c7DupTarget ∈ targets c7State ∧
      tripleOf (toRichTarget c7DupTarget) ∈ (uniqueTargets c7State).map tripleOf ∧
      ((uniqueTargets c7State).map tripleOf).Nodup :=
  ⟨by decide, (c7_uniqueTargets_dedup c7State).2.2.1 _ (by decide),
    (c7_uniqueTargets_dedup c7State).2.1⟩

/-- C8: a `doSetKit` or `doSetConfigurePreset` call is exactly
`_setKitAndRestart`; the input file set is reset first (the trace starts with
the invalidation) and the mutation callback runs; when no generator is
resolvable after the callback the operation fails with `NoGeneratorError` and
no client is ever started; otherwise (the spawn succeeding) the client is
restarted. -/
theorem shutdown_no_start (o : Option Nat) (a : DriverAction)
    (h : a ∈ (match o with
      | some c => [DriverAction.shutdownClient c]
      | none => ([] : List DriverAction))) : ¬ isStartClient a = true := by
  cases o with
  | none => cases h
  | some c =>
    have he := List.mem_singleton.mp h
    subst he
    simp [isStartClient]

theorem clean_no_start (b : Bool) (a : DriverAction)
    (h : a ∈ (if b then [DriverAction.cleanPriorConfiguration]
      else ([] : List DriverAction))) : ¬ isStartClient a = true := by
  cases b with
  | false => simp at h
  | true =>
    have he := List.mem_singleton.mp (by simpa using h)
    subst he
    simp [isStartClient]

theorem c8_setKit_restart (r : ServerReplies) (needClean : Bool)
    (cb : DriverState → DriverState) (s : DriverState) :
    let out := setKitAndRestart r needClean cb s
    doSetKit r cb s = setKitAndRestart r false cb s ∧
    doSetConfigurePreset r needClean cb s = setKitAndRestart r needClean cb s ∧
    out.trace.head? = some .invalidateInputs ∧
    DriverAction.runCallback ∈ out.trace ∧
    (match (cb { s with cmakeInputFileSet := InputFileSet.createEmpty }).generator,
        r.startReply with
     | none, _ =>
        out.err = some .noGenerator ∧ out.trace.filter isStartClient = []
     | some _, some e =>
        out.err = some e ∧ out.trace.filter isStartClient = []
     | some _, none =>
        out.err = none ∧ DriverAction.startClient r.newClientId ∈ out.trace ∧
          out.state.client = some r.newClientId) := by
  intro out
  refine ⟨rfl, rfl, ?_, ?_, ?_⟩
  · simp only [out, setKitAndRestart]
    split <;> rfl
  · simp only [out, setKitAndRestart]
    split <;> simp
  · rcases hg : (cb { s with cmakeInputFileSet := InputFileSet.createEmpty }).generator
      with _ | g
    · have hc : ((cb { s with
          cmakeInputFileSet := InputFileSet.createEmpty }).generator).isNone = true := by
        rw [hg]
        rfl
      simp only [hg]
      constructor
      · simp only [out, setKitAndRestart]
        rw [if_pos hc]
      · simp only [out, setKitAndRestart]
        rw [if_pos hc]
        apply List.filter_eq_nil_iff.mpr
        intro a ha
        rcases List.mem_append.mp ha with h1 | h1
        · rcases List.mem_append.mp h1 with h2 | h2
          · rcases List.mem_append.mp h2 with h3 | h3
            · have he := List.mem_singleton.mp h3
              subst he
              simp [isStartClient]
            · exact shutdown_no_start _ _ h3
          · exact clean_no_start _ _ h2
        · have he := List.mem_singleton.mp h1
          subst he
          simp [isStartClient]
    · rcases hr : r.startReply with _ | e
      · simp only [hg, hr]
        refine ⟨?_, ?_, ?_⟩ <;>
          simp [out, setKitAndRestart, restartClient, hg, hr]
      · simp only [hg, hr]
        constructor
        · simp [out, setKitAndRestart, restartClient, hg, hr]
        · simp only [out, setKitAndRestart, restartClient, hg, hr, Option.isNone_some,
            Bool.false_eq_true, if_false]
          apply List.filter_eq_nil_iff.mpr
          intro a ha
          rcases List.mem_append.mp ha with h1 | h1
          · rcases List.mem_append.mp h1 with h2 | h2
            · rcases List.mem_append.mp h2 with h3 | h3
              · rcases List.mem_append.mp h3 with h4 | h4
                · have he := List.mem_singleton.mp h4
                  subst he
                  simp [isStartClient]
                · exact shutdown_no_start _ _ h4
              · exact clean_no_start _ _ h3
            · have he := List.mem_singleton.mp h2
              subst he
              simp [isStartClient]
          · exact shutdown_no_start _ _ h1

theorem lookup_of_nodup : ∀ l : List (String × JSVal), (l.map Prod.fst).Nodup →
    ∀ kv ∈ l, l.lookup kv.1 = some kv.2 := by
  intro l
  induction l with
  | nil => intro _ kv h; cases h
  | cons p l ih =>
    intro hnd kv hkv
    obtain ⟨k, v⟩ := p
    simp only [List.map_cons, List.nodup_cons] at hnd
    rcases List.mem_cons.mp hkv with rfl | h1
    · simp [List.lookup]
    · obtain ⟨k1, v1⟩ := kv
      have hne : (k1 == k) = false := by
        apply beq_eq_false_iff_ne.mpr
        intro he
        exact hnd.1 (he ▸ List.mem_map.mpr ⟨(k1, v1), h1, rfl⟩)
      simp [List.lookup, hne, ih hnd.2 (k1, v1) h1]

theorem update_fold_spec (equiv : JSVal → JSVal → Bool)
    (hasEmitter : String → Bool) (cfg assigned : String → JSVal)
    (newData : List (String × JSVal)) :
    ∀ iter : List (String × JSVal),
      (∀ kv ∈ iter, newData.lookup kv.1 = some kv.2 ∧ hasEmitter kv.1 = true ∧
        assigned kv.1 = kv.2) →
      ∀ acc : List (String × JSVal) × List String,
        iter.foldl (updateStep equiv hasEmitter true cfg assigned newData) acc =
          (acc.1 ++ iter.filter
              (fun kv => !(equiv kv.2 (cfg kv.1)) && kv.2 != JSVal.undef),
           acc.2 ++ (iter.filter fun kv => !(equiv kv.2 (cfg kv.1))).map Prod.fst) := by
  intro iter
  induction iter with
  | nil => intro _ acc; simp
  | cons kv iter ih =>
    intro hprop acc
    obtain ⟨k, v⟩ := kv
    obtain ⟨hlk, hem, hass⟩ := hprop (k, v) (List.mem_cons_self _ _)
    rw [List.foldl_cons]
    have hstep : updateStep equiv hasEmitter true cfg assigned newData acc (k, v) =
        if equiv v (cfg k) then acc
        else ((if v != JSVal.undef then acc.1 ++ [(k, v)] else acc.1),
          acc.2 ++ [k]) := by
      unfold updateStep
      simp [hem, hass, hlk]
    have htail : ∀ kv ∈ iter, newData.lookup kv.1 = some kv.2 ∧
        hasEmitter kv.1 = true ∧ assigned kv.1 = kv.2 :=
      fun kv h => hprop kv (List.mem_cons_of_mem _ h)
    cases he : equiv v (cfg k) with
    | true =>
      rw [hstep, if_pos he, ih htail acc]
      simp [List.filter_cons, he]
    | false =>
      rw [hstep, if_neg (by rw [he]; exact Bool.false_ne_true),
        ih htail ((if v != JSVal.undef then acc.1 ++ [(k, v)] else acc.1),
          acc.2 ++ [k])]
      cases hu : (v != JSVal.undef) <;>
        simp [List.filter_cons, he, hu, List.append_assoc]

/-- C10: on an `updatePartial(newData)` call (events enabled), given unique
keys that all have emitters, the fired events are exactly the entries of
`newData` whose value is not equivalent to the stored one and is not
`undefined`; the returned key list is exactly the keys of `newData` whose
stored value changed; a key absent from `newData` keeps its stored value (so
fires nothing), and a present key's stored value becomes its new value. -/
theorem c10_updatePartial_events (equiv : JSVal → JSVal → Bool)
    (hasEmitter : String → Bool) (configData : String → JSVal)
    (newData : List (String × JSVal))
    (hnd : (newData.map Prod.fst).Nodup)
    (hem : ∀ kv ∈ newData, hasEmitter kv.1 = true) :
    (updatePartialSettings equiv hasEmitter true configData newData).fired =
      newData.filter
        (fun kv => !(equiv kv.2 (configData kv.1)) && kv.2 != JSVal.undef) ∧
    (updatePartialSettings equiv hasEmitter true configData newData).keys =
      (newData.filter fun kv => !(equiv kv.2 (configData kv.1))).map Prod.fst ∧
    (∀ k, newData.lookup k = none →
      (updatePartialSettings equiv hasEmitter true configData newData).config k =
        configData k) ∧
    (∀ kv ∈ newData,
      (updatePartialSettings equiv hasEmitter true configData newData).config kv.1 =
        kv.2) := by
  have hprop : ∀ kv ∈ newData, newData.lookup kv.1 = some kv.2 ∧
      hasEmitter kv.1 = true ∧
      (fun k => match newData.lookup k with
        | some v => v
        | none => configData k) kv.1 = kv.2 := by
    intro kv hkv
    have hl := lookup_of_nodup newData hnd kv hkv
    exact ⟨hl, hem kv hkv, by simp [hl]⟩
  have hfold := update_fold_spec equiv hasEmitter configData
    (fun k => match newData.lookup k with
      | some v => v
      | none => configData k) newData newData hprop ([], [])
  refine ⟨?_, ?_, ?_, ?_⟩
  · simp only [updatePartialSettings]
    rw [hfold]
    simp
  · simp only [updatePartialSettings]
    rw [hfold]
    simp
  · intro k hk
    simp only [updatePartialSettings]
    simp [hk]
  · intro kv hkv
    have hl := lookup_of_nodup newData hnd kv hkv
    simp only [updatePartialSettings]
    simp [hl]

/-- C10 witness: three keys with emitters and unique names — one changed, one
equivalent, one set to `undefined` — fire exactly the changed, defined one. -/
theorem c10_witness :
    ((c10NewData.map Prod.fst).Nodup) ∧
    (∀ kv ∈ c10NewData, c10HasEmitter kv.1 = true) ∧
    (updatePartialSettings c10Equiv c10HasEmitter true c10Config c10NewData).fired =
      c10NewData.filter
        (fun kv => !(c10Equiv kv.2 (c10Config kv.1)) && kv.2 != JSVal.undef) :=
  ⟨by decide, by decide,
    (c10_updatePartial_events c10Equiv c10HasEmitter c10Config c10NewData
      (by decide) (by decide)).1⟩
